import Mathlib

/-!
A shallow embedding of `loader.py`, a two-step upload pipeline: per file,
`query_target` acquires an upload destination (honoring a 1200-second
freshness TTL on the persisted `.target` record), then `upload_file`
transfers the file (quarantining it on a non-2xx response), then
`get_status` polls the remote status and appends a timestamped entry to the
per-file `.status` log.  Network responses and clock readings are supplied
by an `Env` oracle; filesystem state for one input file is a `FileState`.
Each step returns the updated state together with the list of observable
events (network calls and logged errors) it produced, in order.
-/

set_option autoImplicit false

/-- The persisted per-file record stored in the `<file>.target` JSON
document.  A field is `none` when the corresponding key is absent from the
JSON object (the code reads keys with `.get`, so absent keys are legal). -/
structure RecordFile where
  post_target : Option String
  poll_result : Option String
  uploaded : Option Bool
  acquire_time : Option Int
  deriving Repr, DecidableEq

/-- One entry of the append-only `<file>.status` log: the JSON body fetched
from the poll URI (kept opaque) plus the injected query-time stamp. -/
structure StatusEntry where
  body : String
  queryTime : String
  deriving Repr, DecidableEq

/-- Snapshot of the artifacts moved into the `failed-to-upload` quarantine
directory by one failed upload: whether the data file itself was present,
the record file content, and the status log content at that moment. -/
structure QuarantineEntry where
  hasFile : Bool
  record : Option RecordFile
  statusLog : List StatusEntry
  deriving Repr, DecidableEq

/-- Durable filesystem state relevant to one input file: whether the data
file is still at its original path, the `.target` record (if the record
file exists), the `.status` log entries, and the quarantine directory
contents. -/
structure FileState where
  fileAtOrigin : Bool
  record : Option RecordFile
  statusLog : List StatusEntry
  junk : List QuarantineEntry
  deriving Repr, DecidableEq

/-- Oracle for one pipeline run: the current clock, the configured target
host, and the remote service's responses to each of the three possible
requests.  `statusResp = none` models a transport or JSON-decode failure of
the status fetch; `uploadBodyOk = false` models a decode failure of the
upload response body. -/
structure Env where
  now : Int
  target : String
  acquireStatus : Nat
  acquireReason : String
  acquirePost : String
  acquirePoll : String
  uploadStatus : Nat
  uploadReason : String
  uploadBodyOk : Bool
  statusResp : Option String
  statusTime : String
  deriving Repr, DecidableEq

/-- Observable events of a run, in program order: the three kinds of
network requests, and the exceptions logged by the bare `except` handlers
(acquisition failure, upload failure, status failure, upload-body decode
failure, missing record keys, missing data file). -/
inductive Event where
  | acquireCall (url : String)
  | uploadCall (url : String)
  | statusCall (url : String)
  | errAcquisition (url : String) (status : Nat) (reason : String)
  | errUpload (url : String) (status : Nat) (reason : String)
  | errStatus
  | errDecode
  | errKeyError
  | errFileNotFound
  deriving Repr, DecidableEq

/-- Whether an event is a network request (of any of the three kinds). -/
def Event.isNetworkCall : Event → Bool
  | acquireCall _ => true
  | uploadCall _ => true
  | statusCall _ => true
  | _ => false

/-- Whether an event is a request to the target-assignment endpoint. -/
def Event.isAcquireCall : Event → Bool
  | acquireCall _ => true
  | _ => false

/-- Whether an event is an upload request to the `post-target` URI. -/
def Event.isUploadCall : Event → Bool
  | uploadCall _ => true
  | _ => false

/-- Whether an event is a status fetch from the `poll-result` URI. -/
def Event.isStatusCall : Event → Bool
  | statusCall _ => true
  | _ => false

/-- The freshness TTL hard-coded in `query_target`: 1200 seconds. -/
def ttl : Int := 1200

/-- The empty JSON object `urls = \x7b\x7d` used when the record file does
not exist: every key is absent. -/
def emptyRecord : RecordFile :=
  { post_target := none, poll_result := none, uploaded := none, acquire_time := none }

/-- Python truthiness of `urls.get("uploaded")`: true exactly when the key
is present and holds `true`. -/
def RecordFile.uploadedTruthy (r : RecordFile) : Bool :=
  match r.uploaded with
  | some b => b
  | none => false

/-- `urls.get("acquire_time", d)`: the stored acquisition time, or the
default `d` when the key is absent. -/
def RecordFile.acquireTimeD (r : RecordFile) (d : Int) : Int :=
  r.acquire_time.getD d

/-- The target-assignment URL `"\x7b\x7d/upload-url".format(args["--target"])`. -/
def acquireUrl (env : Env) : String :=
  env.target ++ "/upload-url"

/-- The guard of `query_target`'s network branch:
`not urls.get("uploaded") and urls.get("acquire_time", now - 1200) <= now - 1200`,
where `urls` is the parsed record file or the empty object. -/
def acquisitionDue (env : Env) (s : FileState) : Bool :=
  let urls := s.record.getD emptyRecord
  !urls.uploadedTruthy && decide (urls.acquireTimeD (env.now - ttl) ≤ env.now - ttl)

/-- `get_status(url, fname)`: perform one GET of the poll URI.  On success,
append the body tagged with the current time to the `.status` log; on
transport or decode failure, log the exception and leave the state
unchanged. -/
def get_status (env : Env) (url : String) (s : FileState) : FileState × List Event :=
  match env.statusResp with
  | none => (s, [Event.statusCall url, Event.errStatus])
  | some stat =>
    ({ s with statusLog := s.statusLog ++ [{ body := stat, queryTime := env.statusTime }] },
     [Event.statusCall url])

/-- The quarantine move `for f2move in glob.glob(fname + "*"): shutil.move(f2move, junk)`:
every artifact of the file (the file itself, its record, its status log) is
moved into the quarantine directory. -/
def quarantineMove (s : FileState) : FileState :=
  { fileAtOrigin := false, record := none, statusLog := [],
    junk := s.junk ++ [{ hasFile := s.fileAtOrigin, record := s.record, statusLog := s.statusLog }] }

/-- `upload_file(fname, junk)`: skip when the record file does not exist;
otherwise read `post-target` and `poll-result` (KeyError aborts), open the
data file (FileNotFoundError aborts), and unless `uploaded` is already
truthy POST the file to `post-target`.  A non-2xx response moves all
artifacts to quarantine and raises; on success `uploaded = True` is written
back into the record before the response body is decoded.  In both the
fresh-upload-success and the already-uploaded case, control then reaches
`await get_status(stat_uri, fname)`. -/
def upload_file (env : Env) (s : FileState) : FileState × List Event :=
  match s.record with
  | none => (s, [])
  | some urls =>
    match urls.post_target, urls.poll_result with
    | some post_uri, some stat_uri =>
      if s.fileAtOrigin then
        if urls.uploadedTruthy then
          get_status env stat_uri s
        else if env.uploadStatus < 200 ∨ 299 < env.uploadStatus then
          (quarantineMove s,
           [Event.uploadCall post_uri,
            Event.errUpload post_uri env.uploadStatus env.uploadReason])
        else
          let s1 := { s with record := some { urls with uploaded := some true } }
          if env.uploadBodyOk then
            let r2 := get_status env stat_uri s1
            (r2.1, Event.uploadCall post_uri :: r2.2)
          else
            (s1, [Event.uploadCall post_uri, Event.errDecode])
      else
        (s, [Event.errFileNotFound])
    | _, _ => (s, [Event.errKeyError])

/-- `query_target(loop, args, file_path)`, the whole pipeline run for one
file: when the record is absent, stale, or not yet uploaded (the
`acquisitionDue` guard), POST to the target-assignment endpoint; a non-200
response raises (caught by the bare `except`, aborting the run); a 200
response rewrites the record file with the response body plus
`acquire_time = now`.  Otherwise the acquisition is skipped.  The run then
proceeds to `upload_file`. -/
def query_target (env : Env) (s : FileState) : FileState × List Event :=
  if acquisitionDue env s then
    if env.acquireStatus ≠ 200 then
      (s, [Event.acquireCall (acquireUrl env),
           Event.errAcquisition (acquireUrl env) env.acquireStatus env.acquireReason])
    else
      let s1 := { s with record := some { post_target := some env.acquirePost,
                                          poll_result := some env.acquirePoll,
                                          uploaded := none,
                                          acquire_time := some env.now } }
      let r := upload_file env s1
      (r.1, Event.acquireCall (acquireUrl env) :: r.2)
  else
    upload_file env s

/-- A sequence of pipeline runs on the same file, each with its own oracle,
threading the durable state and concatenating the event trails. -/
def runAll (envs : List Env) (s : FileState) : FileState × List Event :=
  match envs with
  | [] => (s, [])
  | e :: es =>
    let r1 := query_target e s
    let r2 := runAll es r1.1
    (r2.1, r1.2 ++ r2.2)

/-- One entry of the directory enumeration `glob.glob(join(dir, pattern))`:
a matching name together with whether it is a regular file. -/
structure DirEnt where
  name : String
  isFile : Bool
  deriving Repr, DecidableEq

/-- The scheduling loop of `loader`: walk the one-time enumeration, skip
non-regular files, append a pipeline job for each candidate, and emit an
admission round (`await asyncio.wait(batch)`) whenever the batch reaches
the configured size, plus a final round for the leftover batch. -/
def loaderGo (batchSize : Nat) : List DirEnt → List String → List (List String)
  | [], batch => if batch = [] then [] else [batch]
  | f :: fs, batch =>
    if f.isFile then
      let b := batch ++ [f.name]
      if batchSize ≤ b.length then b :: loaderGo batchSize fs []
      else loaderGo batchSize fs b
    else loaderGo batchSize fs batch

/-- `loader(loop, args)`: the admission rounds produced for a directory
enumeration with the given batch size, in order; each round's runs are
started together and awaited before the next round starts. -/
def loader (batchSize : Nat) (files : List DirEnt) : List (List String) :=
  loaderGo batchSize files []

/-- A JSON scalar value as it appears in the flat record document. -/
inductive JVal where
  | jstr (s : String)
  | jint (n : Int)
  | jbool (b : Bool)
  deriving Repr, DecidableEq

/-- The double-quote character. -/
def quoteChar : Char := Char.ofNat 34

/-- The opening-brace character. -/
def lbrace : Char := Char.ofNat 123

/-- The closing-brace character. -/
def rbrace : Char := Char.ofNat 125

/-- Rendering of one JSON scalar, as `json.dumps` prints it. -/
def JVal.render : JVal → List Char
  | .jstr s => quoteChar :: s.toList ++ [quoteChar]
  | .jint n => (toString n).toList
  | .jbool true => "true".toList
  | .jbool false => "false".toList

/-- Rendering of one key/value entry of the record document at
`indent=2`: two spaces, the quoted key, a colon and space, the value. -/
def entryRender : String × JVal → List Char
  | (k, v) => ' ' :: ' ' :: quoteChar :: k.toList ++ quoteChar :: ':' :: ' ' :: v.render

/-- Join with the separator `",\n"` that `json.dumps(..., indent=2)` puts
between entries. -/
def sepJoin : List (List Char) → List Char
  | [] => []
  | [x] => x
  | x :: y :: rest => x ++ ',' :: '\n' :: sepJoin (y :: rest)

/-- `json.dumps(urls, indent=2)` for a flat JSON object: the entries in
dict insertion order, framed by braces, each entry on its own line. -/
def dumps (kvs : List (String × JVal)) : List Char :=
  match kvs with
  | [] => [lbrace, rbrace]
  | _ => lbrace :: '\n' :: sepJoin (kvs.map entryRender) ++ ['\n', rbrace]

/-- Python dict assignment `urls[k] = v`: replace the value in place when
the key exists (keeping its position), otherwise append the new key at the
end of the insertion order. -/
def setKey : List (String × JVal) → String → JVal → List (String × JVal)
  | [], k, v => [(k, v)]
  | (k1, v1) :: rest, k, v =>
    if k1 = k then (k1, v) :: rest else (k1, v1) :: setKey rest k v

/-- The effect on the record file of `fsf.seek(0); fsf.write(new)` when the
file previously held `old` and is not truncated: the new bytes overwrite
the front of the old content, and any old bytes past the end of the new
content survive. -/
def overwriteFrom (old new : List Char) : List Char :=
  new ++ old.drop new.length

/-- A concrete oracle: fresh clock 10000, all three requests succeed. -/
def demoEnv : Env :=
  { now := 10000, target := "http://h", acquireStatus := 200, acquireReason := "OK",
    acquirePost := "http://post", acquirePoll := "http://poll",
    uploadStatus := 200, uploadReason := "OK", uploadBodyOk := true,
    statusResp := some "st", statusTime := "t1" }

/-- A record already marked uploaded, acquired at time 9500 (fresh for the
1200-second TTL at clock 10000). -/
def demoUploadedRec : RecordFile :=
  { post_target := some "http://post", poll_result := some "http://poll",
    uploaded := some true, acquire_time := some 9500 }

/-- A file still at its original path whose record is `demoUploadedRec`,
with an empty status log and an empty quarantine directory. -/
def demoStateUploaded : FileState :=
  { fileAtOrigin := true, record := some demoUploadedRec, statusLog := [], junk := [] }

/-- A record acquired at time 9500 and not yet uploaded. -/
def demoPendingRec : RecordFile :=
  { post_target := some "http://post", poll_result := some "http://poll",
    uploaded := none, acquire_time := some 9500 }

/-- A file still at its original path whose record is `demoPendingRec`. -/
def demoStatePending : FileState :=
  { fileAtOrigin := true, record := some demoPendingRec, statusLog := [], junk := [] }

/-- A record file content as written by `query_target`: the response body
keys plus `acquire_time`, and no `uploaded` key. -/
def demoKvs : List (String × JVal) :=
  [("post-target", JVal.jstr "http://post"), ("poll-result", JVal.jstr "http://poll"),
   ("acquire_time", JVal.jint 9500)]

/-- A directory enumeration with five regular files and one subdirectory. -/
def demoDir : List DirEnt :=
  [{ name := "a1", isFile := true }, { name := "a2", isFile := true },
   { name := "d", isFile := false }, { name := "a3", isFile := true },
   { name := "a4", isFile := true }, { name := "a5", isFile := true }]

/-- A record acquired one second inside the freshness window at clock
10000 (`acquire_time = now - TTL + 1`) and not yet uploaded. -/
def demoFreshRec : RecordFile :=
  { post_target := some "http://post", poll_result := some "http://poll",
    uploaded := none, acquire_time := some 8801 }

/-- A file whose record is `demoFreshRec`. -/
def demoFreshState : FileState :=
  { fileAtOrigin := true, record := some demoFreshRec, statusLog := [], junk := [] }

/-- A record acquired one second past the freshness window at clock 10000
(`acquire_time = now - TTL - 1`) and not yet uploaded. -/
def demoStaleRec : RecordFile :=
  { post_target := some "http://post", poll_result := some "http://poll",
    uploaded := none, acquire_time := some 8799 }

/-- A file whose record is `demoStaleRec`. -/
def demoStaleState : FileState :=
  { fileAtOrigin := true, record := some demoStaleRec, statusLog := [], junk := [] }

/-- A file with no record at all (first run). -/
def demoStateNew : FileState :=
  { fileAtOrigin := true, record := none, statusLog := [], junk := [] }

/-- An oracle whose target-assignment request fails with status 404. -/
def demoEnvAcqFail : Env :=
  { demoEnv with acquireStatus := 404, acquireReason := "Not Found" }

/-- An oracle whose upload request fails with status 500. -/
def demoEnvUpFail : Env :=
  { demoEnv with uploadStatus := 500, uploadReason := "Internal Server Error" }

/-- An oracle whose status fetch fails (transport or decode error). -/
def demoEnvStatFail : Env :=
  { demoEnv with statusResp := none }

/-- A second successful status-poll oracle with a distinct timestamp. -/
def demoEnvT2 : Env :=
  { demoEnv with statusResp := some "s2", statusTime := "t2" }

/-- A third successful status-poll oracle with a distinct timestamp. -/
def demoEnvT3 : Env :=
  { demoEnv with statusResp := some "s3", statusTime := "t3" }

theorem get_status_record (env : Env) (url : String) (s : FileState) :
    (get_status env url s).1.record = s.record := by
  unfold get_status
  rcases h : env.statusResp with _ | b <;> simp [h]

theorem get_status_fileAtOrigin (env : Env) (url : String) (s : FileState) :
    (get_status env url s).1.fileAtOrigin = s.fileAtOrigin := by
  unfold get_status
  rcases h : env.statusResp with _ | b <;> simp [h]

theorem get_status_junk (env : Env) (url : String) (s : FileState) :
    (get_status env url s).1.junk = s.junk := by
  unfold get_status
  rcases h : env.statusResp with _ | b <;> simp [h]

theorem get_status_log_extend (env : Env) (url : String) (s : FileState) :
    ∃ tail, (get_status env url s).1.statusLog = s.statusLog ++ tail := by
  rcases h : env.statusResp with _ | b
  · exact ⟨[], by simp [get_status, h]⟩
  · exact ⟨[{ body := b, queryTime := env.statusTime }], by simp [get_status, h]⟩

theorem get_status_events (env : Env) (url : String) (s : FileState) :
    (get_status env url s).2 = [Event.statusCall url]
    ∨ (get_status env url s).2 = [Event.statusCall url, Event.errStatus] := by
  unfold get_status
  rcases h : env.statusResp with _ | b <;> simp [h]

theorem get_status_no_acquire (env : Env) (url : String) (s : FileState) :
    ((get_status env url s).2.any Event.isAcquireCall) = false := by
  rcases get_status_events env url s with h | h <;> simp [h, Event.isAcquireCall]

theorem get_status_no_upload (env : Env) (url : String) (s : FileState) :
    ((get_status env url s).2.any Event.isUploadCall) = false := by
  rcases get_status_events env url s with h | h <;> simp [h, Event.isUploadCall]

theorem get_status_has_statusCall (env : Env) (url : String) (s : FileState) :
    ((get_status env url s).2.any Event.isStatusCall) = true := by
  rcases get_status_events env url s with h | h <;> simp [h, Event.isStatusCall]

theorem upload_file_no_acquire (env : Env) (s : FileState) :
    ((upload_file env s).2.any Event.isAcquireCall) = false := by
  unfold upload_file
  split
  · rfl
  next urls heqr =>
    split
    · next post_uri stat_uri heqp heqq =>
      by_cases hf : s.fileAtOrigin = true
      · rw [if_pos hf]
        by_cases hu : urls.uploadedTruthy = true
        · rw [if_pos hu]
          exact get_status_no_acquire env stat_uri s
        · rw [if_neg hu]
          by_cases hs : env.uploadStatus < 200 ∨ 299 < env.uploadStatus
          · rw [if_pos hs]; simp [Event.isAcquireCall]
          · rw [if_neg hs]
            by_cases hb : env.uploadBodyOk = true
            · rw [if_pos hb]
              simp [Event.isAcquireCall, get_status_no_acquire]
            · rw [if_neg hb]; simp [Event.isAcquireCall]
      · rw [if_neg hf]; simp [Event.isAcquireCall]
    · simp [Event.isAcquireCall]

theorem upload_file_uploaded_eq (env : Env) (s : FileState) (r : RecordFile) (p q : String)
    (hrec : s.record = some r) (hup : r.uploadedTruthy = true)
    (hp : r.post_target = some p) (hq : r.poll_result = some q)
    (hfile : s.fileAtOrigin = true) :
    upload_file env s = get_status env q s := by
  simp [upload_file, hrec, hp, hq, hfile, hup]

theorem acquisition_skipped_of_uploaded (env : Env) (s : FileState) (r : RecordFile)
    (hrec : s.record = some r) (hup : r.uploadedTruthy = true) :
    acquisitionDue env s = false := by
  simp [acquisitionDue, hrec, hup]

theorem query_target_skip (env : Env) (s : FileState)
    (hdue : acquisitionDue env s = false) :
    query_target env s = upload_file env s := by
  simp [query_target, hdue]

theorem uploaded_run_frame (env : Env) (s : FileState) (r : RecordFile)
    (hrec : s.record = some r) (hup : r.uploaded = some true) :
    (query_target env s).1.record = s.record
    ∧ ((query_target env s).2.any Event.isUploadCall) = false := by
  have hupt : r.uploadedTruthy = true := by simp [RecordFile.uploadedTruthy, hup]
  have hqt : query_target env s = upload_file env s :=
    query_target_skip env s (acquisition_skipped_of_uploaded env s r hrec hupt)
  rw [hqt]
  rcases hpo : r.post_target with _ | p <;> rcases hpl : r.poll_result with _ | q
  · simp [upload_file, hrec, hpo, hpl, Event.isUploadCall]
  · simp [upload_file, hrec, hpo, hpl, Event.isUploadCall]
  · simp [upload_file, hrec, hpo, hpl, Event.isUploadCall]
  · by_cases hf : s.fileAtOrigin = true
    · have he : upload_file env s = get_status env q s :=
        upload_file_uploaded_eq env s r p q hrec hupt hpo hpl hf
      rw [he]
      exact ⟨get_status_record env q s, get_status_no_upload env q s⟩
    · have he : upload_file env s = (s, [Event.errFileNotFound]) := by
        simp [upload_file, hrec, hpo, hpl, hf]
      rw [he]
      simp [Event.isUploadCall]

/-- C3: for a record that is not marked uploaded, with TTL = 1200 seconds:
when `acquire_time = now - TTL + 1` the run skips acquisition entirely (it
equals `upload_file` on the unchanged state, so the existing
post-target/poll-result pair is used unchanged and no request goes to the
target-assignment endpoint); when `acquire_time = now - TTL - 1` the run
does issue a target-assignment request. -/
theorem freshness_window :
    (∀ (env : Env) (s : FileState) (r : RecordFile),
        s.record = some r → r.uploadedTruthy = false →
        r.acquire_time = some (env.now - ttl + 1) →
        query_target env s = upload_file env s
        ∧ ((query_target env s).2.any Event.isAcquireCall) = false)
    ∧ ∀ (env : Env) (s : FileState) (r : RecordFile),
        s.record = some r → r.uploadedTruthy = false →
        r.acquire_time = some (env.now - ttl - 1) →
        ((query_target env s).2.any Event.isAcquireCall) = true := by
  constructor
  · intro env s r hrec hup ht
    have hfresh : ¬ (env.now - ttl + 1 ≤ env.now - ttl) := by omega
    have hdue : acquisitionDue env s = false := by
      simp [acquisitionDue, hrec, hup, RecordFile.acquireTimeD, ht, hfresh]
    have hqt := query_target_skip env s hdue
    exact ⟨hqt, by rw [hqt]; exact upload_file_no_acquire env s⟩
  · intro env s r hrec hup ht
    have hstale : env.now - ttl - 1 ≤ env.now - ttl := by omega
    have hdue : acquisitionDue env s = true := by
      simp [acquisitionDue, hrec, hup, RecordFile.acquireTimeD, ht, hstale]
    rcases eq_or_ne env.acquireStatus 200 with hs | hs <;>
      simp [query_target, hdue, hs, Event.isAcquireCall]

/-- Witness for C3 at clock 10000: the fresh record (acquired at 8801) is
reused without a target-assignment request, the stale record (acquired at
8799) triggers one. -/
theorem freshness_window_witness :
    (query_target demoEnv demoFreshState = upload_file demoEnv demoFreshState
      ∧ ((query_target demoEnv demoFreshState).2.any Event.isAcquireCall) = false)
    ∧ ((query_target demoEnv demoStaleState).2.any Event.isAcquireCall) = true := by
  exact ⟨freshness_window.1 demoEnv demoFreshState demoFreshRec rfl (by decide) (by decide),
         freshness_window.2 demoEnv demoStaleState demoStaleRec rfl (by decide) (by decide)⟩

/-- C4: once a record carries `uploaded = true`, no upload request to the
`post-target` URI is issued by any later sequence of runs on that file,
whatever the oracle does in each run (in particular, also after runs whose
status poll failed). -/
theorem upload_once (envs : List Env) (r : RecordFile)
    (hup : r.uploaded = some true) :
    ∀ s : FileState, s.record = some r →
      ((runAll envs s).2.any Event.isUploadCall) = false := by
  induction envs with
  | nil => intro s _; rfl
  | cons e es ih =>
    intro s hrec
    have hframe := uploaded_run_frame e s r hrec hup
    have h2 : ((runAll es (query_target e s).1).2.any Event.isUploadCall) = false :=
      ih (query_target e s).1 (by rw [hframe.1, hrec])
    show (((query_target e s).2 ++ (runAll es (query_target e s).1).2).any
      Event.isUploadCall) = false
    simp [List.any_append, hframe.2, h2]

/-- Witness for C4: two further runs on an already-uploaded record — the
second with a failing status poll — issue no upload request. -/
theorem upload_once_witness :
    ((runAll [demoEnv, demoEnvStatFail] demoStateUploaded).2.any Event.isUploadCall)
      = false :=
  upload_once [demoEnv, demoEnvStatFail] demoUploadedRec rfl demoStateUploaded rfl

/-- C6: when the target-assignment request is made and comes back with a
non-success status, the run aborts with an acquisition error carrying the
URL, status and reason, no upload request is issued in that run, and the
durable state is untouched (in particular the file stays at its original
path and nothing is quarantined). -/
theorem acquisition_failure_aborts (env : Env) (s : FileState)
    (hdue : acquisitionDue env s = true) (hst : env.acquireStatus ≠ 200) :
    query_target env s
      = (s, [Event.acquireCall (acquireUrl env),
             Event.errAcquisition (acquireUrl env) env.acquireStatus env.acquireReason])
    ∧ ((query_target env s).2.any Event.isUploadCall) = false
    ∧ (query_target env s).1 = s := by
  have h1 : query_target env s
      = (s, [Event.acquireCall (acquireUrl env),
             Event.errAcquisition (acquireUrl env) env.acquireStatus env.acquireReason]) := by
    simp [query_target, hdue, hst]
  exact ⟨h1, by rw [h1]; simp [Event.isUploadCall], by rw [h1]⟩

/-- Witness for C6: a first run whose acquisition gets a 404 leaves the
state untouched and uploads nothing. -/
theorem acquisition_failure_aborts_witness :
    query_target demoEnvAcqFail demoStateNew
      = (demoStateNew,
         [Event.acquireCall (acquireUrl demoEnvAcqFail),
          Event.errAcquisition (acquireUrl demoEnvAcqFail) demoEnvAcqFail.acquireStatus
            demoEnvAcqFail.acquireReason])
    ∧ ((query_target demoEnvAcqFail demoStateNew).2.any Event.isUploadCall) = false
    ∧ (query_target demoEnvAcqFail demoStateNew).1 = demoStateNew :=
  acquisition_failure_aborts demoEnvAcqFail demoStateNew (by decide) (by decide)

theorem resumed_run_eq (env : Env) (s : FileState) (r : RecordFile) (p q : String)
    (hrec : s.record = some r) (hup : r.uploadedTruthy = true)
    (hp : r.post_target = some p) (hq : r.poll_result = some q)
    (hf : s.fileAtOrigin = true) :
    query_target env s = get_status env q s :=
  (query_target_skip env s (acquisition_skipped_of_uploaded env s r hrec hup)).trans
    (upload_file_uploaded_eq env s r p q hrec hup hp hq hf)

theorem get_status_eq_some (env : Env) (url : String) (s : FileState) (b : String)
    (h : env.statusResp = some b) :
    get_status env url s
      = ({ s with statusLog := s.statusLog ++ [{ body := b, queryTime := env.statusTime }] },
         [Event.statusCall url]) := by
  simp [get_status, h]

theorem get_status_log_some (env : Env) (url : String) (s : FileState) (b : String)
    (h : env.statusResp = some b) :
    (get_status env url s).1.statusLog
      = s.statusLog ++ [{ body := b, queryTime := env.statusTime }] := by
  simp [get_status, h]

/-- C5: when the upload request is made (record present with both URIs,
file at its path, not yet uploaded) and the response status is outside
200-299, the whole run for the file ends with the file no longer at its
original path, the file together with its record (and status log) moved
into the quarantine directory, and an upload error carrying URL, status
and reason. -/
theorem upload_failure_quarantines (env : Env) (s : FileState) (urls : RecordFile)
    (p q : String)
    (hrec : s.record = some urls) (hp : urls.post_target = some p)
    (hq : urls.poll_result = some q) (hf : s.fileAtOrigin = true)
    (hup : urls.uploadedTruthy = false)
    (hst : env.uploadStatus < 200 ∨ 299 < env.uploadStatus) :
    upload_file env s
      = (quarantineMove s,
         [Event.uploadCall p, Event.errUpload p env.uploadStatus env.uploadReason])
    ∧ (upload_file env s).1.fileAtOrigin = false
    ∧ (upload_file env s).1.junk
        = s.junk ++ [{ hasFile := true, record := some urls, statusLog := s.statusLog }] := by
  have hcond : (env.uploadStatus < 200 ∨ 299 < env.uploadStatus) = True := eq_true hst
  have h1 : upload_file env s
      = (quarantineMove s,
         [Event.uploadCall p, Event.errUpload p env.uploadStatus env.uploadReason]) := by
    simp [upload_file, hrec, hp, hq, hf, hup, hcond]
  refine ⟨h1, by rw [h1]; simp [quarantineMove], by rw [h1]; simp [quarantineMove, hrec, hf]⟩

/-- Witness for C5: a pending record whose upload gets a 500 ends
quarantined with its record, and the error carries URL, status, reason. -/
theorem upload_failure_quarantines_witness :
    upload_file demoEnvUpFail demoStatePending
      = (quarantineMove demoStatePending,
         [Event.uploadCall "http://post",
          Event.errUpload "http://post" demoEnvUpFail.uploadStatus demoEnvUpFail.uploadReason])
    ∧ (upload_file demoEnvUpFail demoStatePending).1.fileAtOrigin = false
    ∧ (upload_file demoEnvUpFail demoStatePending).1.junk
        = demoStatePending.junk
          ++ [{ hasFile := true, record := some demoPendingRec,
                statusLog := demoStatePending.statusLog }] :=
  upload_failure_quarantines demoEnvUpFail demoStatePending demoPendingRec
    "http://post" "http://poll" rfl rfl rfl rfl (by decide) (by decide)

/-- C7: a transport or decode failure of the post-upload status fetch is
reported as a status error, but the run for the file still ends with the
record persisted as uploaded, the file at its original path, nothing
quarantined and the status log untouched — the successful upload is not
undone. -/
theorem status_failure_does_not_undo_upload (env : Env) (s : FileState) (urls : RecordFile)
    (p q : String)
    (hrec : s.record = some urls) (hp : urls.post_target = some p)
    (hq : urls.poll_result = some q) (hf : s.fileAtOrigin = true)
    (hup : urls.uploadedTruthy = false)
    (hdue : acquisitionDue env s = false)
    (h2a : 200 ≤ env.uploadStatus) (h2b : env.uploadStatus ≤ 299)
    (hbody : env.uploadBodyOk = true)
    (hfail : env.statusResp = none) :
    query_target env s
      = ({ s with record := some { urls with uploaded := some true } },
         [Event.uploadCall p, Event.statusCall q, Event.errStatus])
    ∧ (query_target env s).1.record = some { urls with uploaded := some true }
    ∧ (query_target env s).1.fileAtOrigin = s.fileAtOrigin
    ∧ (query_target env s).1.junk = s.junk
    ∧ Event.errStatus ∈ (query_target env s).2 := by
  have hcond : ¬ (env.uploadStatus < 200 ∨ 299 < env.uploadStatus) := by omega
  have h1 : query_target env s
      = ({ s with record := some { urls with uploaded := some true } },
         [Event.uploadCall p, Event.statusCall q, Event.errStatus]) := by
    rw [query_target_skip env s hdue]
    simp [upload_file, hrec, hp, hq, hf, hup, hcond, hbody, get_status, hfail]
  refine ⟨h1, by rw [h1], by rw [h1], by rw [h1], by rw [h1]; simp⟩

/-- Witness for C7: a fresh pending record, successful upload, failing
status fetch — the record ends uploaded, nothing is quarantined. -/
theorem status_failure_does_not_undo_upload_witness :
    query_target demoEnvStatFail demoStatePending
      = ({ demoStatePending with
            record := some { demoPendingRec with uploaded := some true } },
         [Event.uploadCall "http://post", Event.statusCall "http://poll", Event.errStatus])
    ∧ (query_target demoEnvStatFail demoStatePending).1.record
        = some { demoPendingRec with uploaded := some true }
    ∧ (query_target demoEnvStatFail demoStatePending).1.fileAtOrigin
        = demoStatePending.fileAtOrigin
    ∧ (query_target demoEnvStatFail demoStatePending).1.junk = demoStatePending.junk
    ∧ Event.errStatus ∈ (query_target demoEnvStatFail demoStatePending).2 :=
  status_failure_does_not_undo_upload demoEnvStatFail demoStatePending demoPendingRec
    "http://post" "http://poll" rfl rfl rfl rfl (by decide) (by decide) (by decide)
    (by decide) (by decide) rfl

/-- C1 fails on the code: for a file with `uploaded = true` and a
non-expired `acquire_time` (acquired at 9500, clock 10000, TTL 1200), the
second of two immediately successive runs does perform an observable
network call (the status poll at line 115 of `loader.py` runs outside the
uploaded check), and the durable state after the second run differs from
the state after the first run (the status log has one more entry). -/
theorem second_run_not_idempotent_cex :
    demoUploadedRec.uploaded = some true
    ∧ demoEnv.now - ttl < 9500
    ∧ ((query_target demoEnv (query_target demoEnv demoStateUploaded).1).2.any
        Event.isNetworkCall) = true
    ∧ (query_target demoEnv (query_target demoEnv demoStateUploaded).1).1
        ≠ (query_target demoEnv demoStateUploaded).1 := by
  refine ⟨rfl, by decide, by decide, by decide⟩

/-- C1 (amended): for a file whose record has `uploaded = true` and a
non-expired `acquire_time`, a second immediately successive run leaves the
record file, the file placement and the quarantine directory identical to
the first run's outcome and performs no acquisition or upload call — but
each of the two runs does perform a status poll, and on a successful poll
appends one more entry to the status log, so the durable status log after
the second run differs from the one after the first. -/
theorem second_run_repolls (env : Env) (s : FileState) (r : RecordFile)
    (p q b : String) (t : Int)
    (hrec : s.record = some r) (hup : r.uploaded = some true)
    (hp : r.post_target = some p) (hq : r.poll_result = some q)
    (hf : s.fileAtOrigin = true)
    (_hat : r.acquire_time = some t) (_hfresh : env.now - ttl < t)
    (hresp : env.statusResp = some b) :
    query_target env s
      = ({ s with statusLog
            := s.statusLog ++ [{ body := b, queryTime := env.statusTime }] },
         [Event.statusCall q])
    ∧ query_target env (query_target env s).1
      = ({ s with statusLog
            := s.statusLog ++ [{ body := b, queryTime := env.statusTime },
                               { body := b, queryTime := env.statusTime }] },
         [Event.statusCall q]) := by
  have hupt : r.uploadedTruthy = true := by simp [RecordFile.uploadedTruthy, hup]
  have h1 : query_target env s
      = ({ s with statusLog
            := s.statusLog ++ [{ body := b, queryTime := env.statusTime }] },
         [Event.statusCall q]) :=
    (resumed_run_eq env s r p q hrec hupt hp hq hf).trans
      (get_status_eq_some env q s b hresp)
  refine ⟨h1, ?_⟩
  rw [h1]
  have h2 := (resumed_run_eq env
      ({ s with statusLog := s.statusLog ++ [{ body := b, queryTime := env.statusTime }] })
      r p q hrec hupt hp hq hf).trans
    (get_status_eq_some env q _ b hresp)
  rw [h2]
  simp

/-- Witness for the amended C1 on the concrete uploaded record. -/
theorem second_run_repolls_witness :
    query_target demoEnv demoStateUploaded
      = ({ demoStateUploaded with
            statusLog := demoStateUploaded.statusLog
              ++ [{ body := "st", queryTime := "t1" }] },
         [Event.statusCall "http://poll"])
    ∧ query_target demoEnv (query_target demoEnv demoStateUploaded).1
      = ({ demoStateUploaded with
            statusLog := demoStateUploaded.statusLog
              ++ [{ body := "st", queryTime := "t1" },
                  { body := "st", queryTime := "t1" }] },
         [Event.statusCall "http://poll"]) :=
  second_run_repolls demoEnv demoStateUploaded demoUploadedRec
    "http://post" "http://poll" "st" 9500 rfl rfl rfl rfl rfl rfl (by decide) rfl

/-- C2 fails on the code: on a resumed run whose record already has
`uploaded = true`, the upload is skipped, yet the status poll is still
performed — `await get_status(stat_uri, fname)` sits outside the
`if not urls.get("uploaded")` branch. -/
theorem resumed_run_poll_cex :
    demoUploadedRec.uploaded = some true
    ∧ ((query_target demoEnv demoStateUploaded).2.any Event.isUploadCall) = false
    ∧ ((query_target demoEnv demoStateUploaded).2.any Event.isStatusCall) = true := by
  refine ⟨rfl, by decide, by decide⟩

/-- C2 (amended): on a resumed run where the record already has
`uploaded = true` (with both URIs present and the file at its path), the
upload and the acquisition are skipped, but the status poll IS still
attempted in that run. -/
theorem resumed_run_skips_upload_still_polls (env : Env) (s : FileState) (r : RecordFile)
    (p q : String)
    (hrec : s.record = some r) (hup : r.uploaded = some true)
    (hp : r.post_target = some p) (hq : r.poll_result = some q)
    (hf : s.fileAtOrigin = true) :
    ((query_target env s).2.any Event.isUploadCall) = false
    ∧ ((query_target env s).2.any Event.isAcquireCall) = false
    ∧ ((query_target env s).2.any Event.isStatusCall) = true := by
  have hupt : r.uploadedTruthy = true := by simp [RecordFile.uploadedTruthy, hup]
  have h := resumed_run_eq env s r p q hrec hupt hp hq hf
  rw [h]
  exact ⟨get_status_no_upload env q s, get_status_no_acquire env q s,
         get_status_has_statusCall env q s⟩

/-- Witness for the amended C2 on the concrete uploaded record. -/
theorem resumed_run_skips_upload_still_polls_witness :
    ((query_target demoEnvStatFail demoStateUploaded).2.any Event.isUploadCall) = false
    ∧ ((query_target demoEnvStatFail demoStateUploaded).2.any Event.isAcquireCall) = false
    ∧ ((query_target demoEnvStatFail demoStateUploaded).2.any Event.isStatusCall) = true :=
  resumed_run_skips_upload_still_polls demoEnvStatFail demoStateUploaded demoUploadedRec
    "http://post" "http://poll" rfl rfl rfl rfl rfl

/-- C8: the status log is append-only — any poll leaves the previous
entries as a prefix — and three successive successful polls starting from
an empty log produce exactly the three fetched snapshots in order, each
tagged with its own timestamp, with no prior entry overwritten or removed;
when the three query times differ, the logged timestamps are pairwise
distinct. -/
theorem status_log_append_only :
    (∀ (env : Env) (url : String) (s : FileState),
        ∃ tail, (get_status env url s).1.statusLog = s.statusLog ++ tail)
    ∧ ∀ (e1 e2 e3 : Env) (url : String) (s : FileState) (b1 b2 b3 : String),
        s.statusLog = [] →
        e1.statusResp = some b1 → e2.statusResp = some b2 → e3.statusResp = some b3 →
        e1.statusTime ≠ e2.statusTime → e1.statusTime ≠ e3.statusTime →
        e2.statusTime ≠ e3.statusTime →
        (get_status e3 url (get_status e2 url (get_status e1 url s).1).1).1.statusLog
          = [{ body := b1, queryTime := e1.statusTime },
             { body := b2, queryTime := e2.statusTime },
             { body := b3, queryTime := e3.statusTime }]
        ∧ ((get_status e3 url (get_status e2 url (get_status e1 url s).1).1).1.statusLog.map
            StatusEntry.queryTime).Nodup := by
  refine ⟨get_status_log_extend, ?_⟩
  intro e1 e2 e3 url s b1 b2 b3 h0 h1 h2 h3 d12 d13 d23
  have hlog : (get_status e3 url (get_status e2 url (get_status e1 url s).1).1).1.statusLog
      = [{ body := b1, queryTime := e1.statusTime },
         { body := b2, queryTime := e2.statusTime },
         { body := b3, queryTime := e3.statusTime }] := by
    rw [get_status_log_some e3 url _ b3 h3, get_status_log_some e2 url _ b2 h2,
        get_status_log_some e1 url s b1 h1, h0]
    simp
  refine ⟨hlog, ?_⟩
  rw [hlog]
  simp [d12, d13, d23]

/-- Witness for C8: three concrete successful polls with timestamps t1, t2,
t3 produce exactly those three entries. -/
theorem status_log_append_only_witness :
    (get_status demoEnvT3 "http://poll"
        (get_status demoEnvT2 "http://poll"
          (get_status demoEnv "http://poll" demoStateUploaded).1).1).1.statusLog
      = [{ body := "st", queryTime := "t1" }, { body := "s2", queryTime := "t2" },
         { body := "s3", queryTime := "t3" }]
    ∧ ((get_status demoEnvT3 "http://poll"
          (get_status demoEnvT2 "http://poll"
            (get_status demoEnv "http://poll" demoStateUploaded).1).1).1.statusLog.map
        StatusEntry.queryTime).Nodup :=
  status_log_append_only.2 demoEnv demoEnvT2 demoEnvT3 "http://poll" demoStateUploaded
    "st" "s2" "s3" rfl rfl rfl rfl (by decide) (by decide) (by decide)

theorem loaderGo_flatten (bs : Nat) :
    ∀ (fs : List DirEnt) (batch : List String),
      (loaderGo bs fs batch).flatten
        = batch ++ (fs.filter fun f => f.isFile).map DirEnt.name := by
  intro fs
  induction fs with
  | nil =>
    intro batch
    by_cases h : batch = [] <;> simp [loaderGo, h]
  | cons f fs ih =>
    intro batch
    by_cases hf : f.isFile = true
    · by_cases hb : bs ≤ batch.length + 1
      · simp [loaderGo, hf, hb, ih, List.filter_cons]
      · simp [loaderGo, hf, hb, ih, List.filter_cons]
    · simp [loaderGo, hf, ih, List.filter_cons]

theorem loaderGo_round_bound (bs : Nat) :
    ∀ (fs : List DirEnt) (batch : List String), batch.length < bs →
      ∀ rd ∈ loaderGo bs fs batch, rd.length ≤ bs := by
  intro fs
  induction fs with
  | nil =>
    intro batch hlt rd hrd
    by_cases h : batch = []
    · simp [loaderGo, h] at hrd
    · simp [loaderGo, h] at hrd
      subst hrd
      omega
  | cons f fs ih =>
    intro batch hlt rd hrd
    by_cases hf : f.isFile = true
    · by_cases hb : bs ≤ (batch ++ [f.name]).length
      · simp only [loaderGo, hf, if_true, hb] at hrd
        rcases List.mem_cons.mp hrd with h | h
        · subst h
          simp only [List.length_append, List.length_cons, List.length_nil]
          omega
        · have h0 : ([] : List String).length < bs := by
            simp only [List.length_nil]
            simp only [List.length_append, List.length_cons, List.length_nil] at hb
            omega
          exact ih [] h0 rd h
      · simp only [loaderGo, hf, if_true, hb, if_false] at hrd
        have : (batch ++ [f.name]).length < bs := by omega
        exact ih (batch ++ [f.name]) this rd hrd
    · simp only [loaderGo, hf] at hrd
      exact ih batch hlt rd hrd

/-- C9: the scheduler walks the one-time directory enumeration, considers
only regular files, starts exactly one pipeline run per candidate (the
rounds flatten to exactly the filtered candidate list, in order, with no
duplicates and no re-scan), every admission round has at most the batch
size many runs, and rounds are awaited strictly in sequence; on the
concrete enumeration of five matching files (plus one subdirectory) with
batch size 2, the rounds have sizes 2, 2 and 1 and cover all five files. -/
theorem scheduler_batches :
    (∀ (bs : Nat) (files : List DirEnt), 0 < bs →
        (loader bs files).flatten = (files.filter fun f => f.isFile).map DirEnt.name
        ∧ ∀ rd ∈ loader bs files, rd.length ≤ bs)
    ∧ (loader 2 demoDir).map List.length = [2, 2, 1]
    ∧ (loader 2 demoDir).flatten = ["a1", "a2", "a3", "a4", "a5"] := by
  refine ⟨fun bs files hbs =>
    ⟨loaderGo_flatten bs files [],
     loaderGo_round_bound bs files [] (by simpa using hbs)⟩, by decide, by decide⟩

/-- Witness for C9 at batch size 2 on the concrete enumeration. -/
theorem scheduler_batches_witness :
    (loader 2 demoDir).flatten = (demoDir.filter fun f => f.isFile).map DirEnt.name
    ∧ ∀ rd ∈ loader 2 demoDir, rd.length ≤ 2 :=
  scheduler_batches.1 2 demoDir (by decide)

theorem sepJoin_snoc (xs : List (List Char)) (y : List Char) (h : xs ≠ []) :
    sepJoin (xs ++ [y]) = sepJoin xs ++ ',' :: '\n' :: y := by
  induction xs with
  | nil => exact absurd rfl h
  | cons x xs ih =>
    cases xs with
    | nil => simp [sepJoin]
    | cons z zs =>
      show x ++ ',' :: '\n' :: sepJoin ((z :: zs) ++ [y])
        = (x ++ ',' :: '\n' :: sepJoin (z :: zs)) ++ ',' :: '\n' :: y
      rw [ih (by simp)]
      simp

theorem dumps_snoc_longer (kvs : List (String × JVal)) (kv : String × JVal) :
    (dumps kvs).length ≤ (dumps (kvs ++ [kv])).length := by
  cases kvs with
  | nil => simp [dumps, sepJoin]
  | cons x xs =>
    show (lbrace :: '\n' :: (sepJoin (List.map entryRender (x :: xs)) ++ ['\n', rbrace])).length
      ≤ (lbrace :: '\n'
          :: (sepJoin (List.map entryRender ((x :: xs) ++ [kv])) ++ ['\n', rbrace])).length
    simp only [List.map_append, List.map_cons, List.map_nil]
    rw [sepJoin_snoc _ _ (by simp)]
    simp only [List.length_cons, List.length_append]
    omega

theorem overwriteFrom_of_le (old new : List Char) (h : old.length ≤ new.length) :
    overwriteFrom old new = new := by
  unfold overwriteFrom
  rw [List.drop_eq_nil_of_le h, List.append_nil]

theorem setKey_of_not_mem :
    ∀ (kvs : List (String × JVal)) (k : String) (v : JVal),
      k ∉ kvs.map Prod.fst → setKey kvs k v = kvs ++ [(k, v)] := by
  intro kvs
  induction kvs with
  | nil => intro k v _; rfl
  | cons x xs ih =>
    intro k v h
    rcases x with ⟨k1, v1⟩
    simp only [List.map_cons, List.mem_cons] at h
    push_neg at h
    simp [setKey, Ne.symm h.1, ih k v h.2]

/-- C10: on a successful upload the persisted record keeps exactly the
`post-target`, `poll-result` and `acquire_time` values that were read from
it at the start of the step, and only `uploaded` changes, becoming `true`.
At the byte level the rewrite is performed in place from offset 0 without
truncation; because `urls["uploaded"] = True` appends a key that was absent
from the parsed dict (a record freshly written by `query_target` has no
`uploaded` key), the new serialization is at least as long as the old one,
so the non-truncating overwrite leaves the file holding exactly the new
serialization — the original entries verbatim plus the `uploaded` entry. -/
theorem upload_rewrite_preserves_record (env : Env) (s : FileState) (urls : RecordFile)
    (p q : String)
    (hrec : s.record = some urls) (hp : urls.post_target = some p)
    (hq : urls.poll_result = some q) (hf : s.fileAtOrigin = true)
    (hup : urls.uploadedTruthy = false)
    (h2a : 200 ≤ env.uploadStatus) (h2b : env.uploadStatus ≤ 299) :
    (upload_file env s).1.record = some { urls with uploaded := some true }
    ∧ ∀ (kvs : List (String × JVal)) (k : String),
        k ∉ kvs.map Prod.fst →
        overwriteFrom (dumps kvs) (dumps (setKey kvs k (JVal.jbool true)))
          = dumps (kvs ++ [(k, JVal.jbool true)]) := by
  constructor
  · have hcond : ¬ (env.uploadStatus < 200 ∨ 299 < env.uploadStatus) := by omega
    by_cases hb : env.uploadBodyOk = true
    · simp [upload_file, hrec, hp, hq, hf, hup, hcond, hb, get_status_record]
    · simp [upload_file, hrec, hp, hq, hf, hup, hcond, hb]
  · intro kvs k hk
    rw [setKey_of_not_mem kvs k (JVal.jbool true) hk]
    exact overwriteFrom_of_le _ _ (dumps_snoc_longer kvs (k, JVal.jbool true))

/-- Witness for C10: uploading the concrete pending record flips only its
`uploaded` field, and the concrete record file content is rewritten
losslessly in place. -/
theorem upload_rewrite_preserves_record_witness :
    (upload_file demoEnv demoStatePending).1.record
      = some { demoPendingRec with uploaded := some true }
    ∧ overwriteFrom (dumps demoKvs) (dumps (setKey demoKvs "uploaded" (JVal.jbool true)))
        = dumps (demoKvs ++ [("uploaded", JVal.jbool true)]) := by
  have h := upload_rewrite_preserves_record demoEnv demoStatePending demoPendingRec
    "http://post" "http://poll" rfl rfl rfl rfl (by decide) (by decide) (by decide)
  exact ⟨h.1, h.2 demoKvs "uploaded" (by decide)⟩
